import Mathlib

/-!
Verification of the DirectoryStructuredMarkdown converter (`src/main.py`).

The development shallowly embeds the program's path-selection engine
(`should_process_path`), the tree renderer (`generate_tree`), the walker
(`collect_files`) and the document assembler (`create_markdown`) as
executable Lean functions, and proves the specification's claims about them.

Modelling conventions:
* A Python `pathlib.Path` is modelled by its POSIX string form; joining a
  directory path with a child name appends `"/" ++ name`.
* A compiled regular expression is modelled by its `search` predicate, a
  `String → Bool` function (no claim depends on regex internals).
* Wildcard matching embeds the semantics of Python's `fnmatch.fnmatch`
  (`fnmatch.translate`): `*` becomes `.*` (it matches any characters,
  path separators included), `?` matches exactly one character, and
  `[...]` is a character class with `!` negation, `a-b` ranges and a
  literal `]` allowed as the first member; an unterminated `[` is literal.
  The pattern is first tokenised (as `translate` does), then matched.
* Python string comparison (used by the two `sorted` calls) is
  code-point lexicographic order, embedded as `charsLE`.
* The filesystem is a finite tree; a directory carries a `listable` flag
  (false models a directory whose listing raises `OSError`).  `os.walk`
  with the default `onerror=None` silently skips an unlistable directory,
  while `Path.iterdir` raises; both behaviours are embedded.
* Fallible operations return `Except String α`; an uncaught Python
  exception is `Except.error`.
-/

namespace DSMd

/-- Equality test on `Except`, used to state concrete runs as equations. -/
instance {ε α : Type} [DecidableEq ε] [DecidableEq α] : DecidableEq (Except ε α) :=
  fun a b =>
    match a, b with
    | Except.ok x, Except.ok y => decidable_of_iff (x = y) (by simp)
    | Except.error e, Except.error f => decidable_of_iff (e = f) (by simp)
    | Except.ok _, Except.error _ => isFalse (by simp)
    | Except.error _, Except.ok _ => isFalse (by simp)

/-! ## Code-point lexicographic string order (Python `<=` on `str`) -/

/-- Python's string comparison: lexicographic on code points. -/
def charsLE : List Char → List Char → Bool
  | [], _ => true
  | _ :: _, [] => false
  | a :: as, b :: bs =>
    if a.toNat < b.toNat then true
    else if b.toNat < a.toNat then false
    else charsLE as bs

theorem charsLE_total : ∀ a b : List Char, charsLE a b = true ∨ charsLE b a = true := by
  intro a
  induction a with
  | nil => intro b; left; rfl
  | cons x as ih =>
    intro b
    cases b with
    | nil => right; rfl
    | cons y bs =>
      by_cases h1 : x.toNat < y.toNat
      · left; simp [charsLE, h1]
      · by_cases h2 : y.toNat < x.toNat
        · right; simp [charsLE, h2]
        · rcases ih bs with h | h
          · left; simp [charsLE, h1, h2, h]
          · right; simp [charsLE, h1, h2, h]

theorem charsLE_trans : ∀ a b c : List Char,
    charsLE a b = true → charsLE b c = true → charsLE a c = true := by
  intro a
  induction a with
  | nil => intro b c _ _; rfl
  | cons x as ih =>
    intro b c hab hbc
    cases b with
    | nil => simp [charsLE] at hab
    | cons y bs =>
      cases c with
      | nil => simp [charsLE] at hbc
      | cons z cs =>
        rw [charsLE] at hab hbc ⊢
        rcases Nat.lt_trichotomy x.toNat y.toNat with hxy | hxy | hxy
        · rcases Nat.lt_trichotomy y.toNat z.toNat with hyz | hyz | hyz
          · rw [if_pos (by omega : x.toNat < z.toNat)]
          · rw [if_pos (by omega : x.toNat < z.toNat)]
          · rw [if_neg (by omega : ¬ y.toNat < z.toNat),
              if_pos (by omega : z.toNat < y.toNat)] at hbc
            exact absurd hbc (by simp)
        · rcases Nat.lt_trichotomy y.toNat z.toNat with hyz | hyz | hyz
          · rw [if_pos (by omega : x.toNat < z.toNat)]
          · rw [if_neg (by omega : ¬ x.toNat < y.toNat),
              if_neg (by omega : ¬ y.toNat < x.toNat)] at hab
            rw [if_neg (by omega : ¬ y.toNat < z.toNat),
              if_neg (by omega : ¬ z.toNat < y.toNat)] at hbc
            rw [if_neg (by omega : ¬ x.toNat < z.toNat),
              if_neg (by omega : ¬ z.toNat < x.toNat)]
            exact ih bs cs hab hbc
          · rw [if_neg (by omega : ¬ y.toNat < z.toNat),
              if_pos (by omega : z.toNat < y.toNat)] at hbc
            exact absurd hbc (by simp)
        · rw [if_neg (by omega : ¬ x.toNat < y.toNat),
            if_pos (by omega : y.toNat < x.toNat)] at hab
          exact absurd hab (by simp)

/-! ## Wildcard (fnmatch) matching -/

/-- Membership test for the body of an `[...]` character class, with
`a-b` ranges (an empty range such as `z-a` matches nothing, as in
`fnmatch.translate`) and all other characters literal. -/
def classMatches (c : Char) : List Char → Bool
  | [] => false
  | lo :: '-' :: hi :: rest => (lo ≤ c && c ≤ hi) || classMatches c rest
  | x :: rest => (x = c) || classMatches c rest

/-- Scan for the `]` that closes a character class, returning the body
and the remainder of the pattern; `none` if the class is unterminated. -/
def classSplit (acc : List Char) : List Char → Option (List Char × List Char)
  | [] => none
  | c :: rest =>
    if c = ']' then some (acc.reverse, rest)
    else classSplit (c :: acc) rest

/-- Parse the part of a pattern following `[`: an optional `!` negation,
an optional literal `]` first member, then the body up to the closing
`]`.  Returns (negated, body, rest-of-pattern). -/
def parseClass (cs : List Char) : Option (Bool × List Char × List Char) :=
  let p := match cs with
    | '!' :: t => (true, t)
    | _ => (false, cs)
  match p.2 with
  | ']' :: t => (classSplit [']'] t).map (fun q => (p.1, q.1, q.2))
  | other => (classSplit [] other).map (fun q => (p.1, q.1, q.2))

/-- One token of a translated wildcard pattern. -/
inductive GTok where
  | lit (c : Char) : GTok
  | anyOne : GTok
  | anyMany : GTok
  | cls (neg : Bool) (body : List Char) : GTok
deriving DecidableEq

/-- Tokenise a wildcard pattern exactly as `fnmatch.translate` scans it.
The fuel argument only bounds the scan (class parsing skips ahead); any
fuel of at least the pattern's length is enough and never runs out. -/
def lexGlob : Nat → List Char → List GTok
  | _, [] => []
  | 0, _ => []
  | fuel + 1, '*' :: ps => GTok.anyMany :: lexGlob fuel ps
  | fuel + 1, '?' :: ps => GTok.anyOne :: lexGlob fuel ps
  | fuel + 1, '[' :: ps =>
    (match parseClass ps with
     | none => GTok.lit '[' :: lexGlob fuel ps
     | some q => GTok.cls q.1 q.2.1 :: lexGlob fuel q.2.2)
  | fuel + 1, c :: ps => GTok.lit c :: lexGlob fuel ps

/-- Match a token list against a string (as `re.match(..., s)\Z` with
DOTALL): `anyMany` may swallow any suffix boundary, so it tries every
tail of the remaining input. -/
def tokMatch : List GTok → List Char → Bool
  | [], s => s.isEmpty
  | GTok.anyMany :: ts, s => s.tails.any (fun t => tokMatch ts t)
  | GTok.anyOne :: ts, s =>
    (match s with
     | [] => false
     | _ :: cs => tokMatch ts cs)
  | GTok.lit c :: ts, s =>
    (match s with
     | [] => false
     | c2 :: cs => (c2 = c) && tokMatch ts cs)
  | GTok.cls neg body :: ts, s =>
    (match s with
     | [] => false
     | c :: cs => (classMatches c body != neg) && tokMatch ts cs)

/-- `fnmatch.fnmatch(name, pat)` (POSIX: `normcase` is the identity). -/
def fnmatch (name pat : String) : Bool :=
  tokMatch (lexGlob pat.data.length pat.data) name.data

/-! ## Rule set and the selector (`should_process_path`, main.py lines 18-64) -/

/-- A compiled regex, modelled by its `search` predicate. -/
abbrev Regex := String → Bool

/-- The four pattern collections passed together to every call of
`should_process_path` (main.py's `include_patterns`, `include_regexes`,
`exclude_patterns`, `exclude_regexes` parameters). -/
structure RuleSet where
  include_patterns : List String
  include_regexes : List Regex
  exclude_patterns : List String
  exclude_regexes : List Regex

/-- Lines 39-40: `any(fnmatch.fnmatch(path_str, p) for p in exclude_patterns)
or any(r.search(path_str) for r in exclude_regexes)`. -/
def matchesExclude (rs : RuleSet) (path_str : String) : Bool :=
  rs.exclude_patterns.any (fun p => fnmatch path_str p) ||
    rs.exclude_regexes.any (fun r => r path_str)

/-- Lines 52-53 / 60-61: the same disjunction over the include lists. -/
def matchesInclude (rs : RuleSet) (path_str : String) : Bool :=
  rs.include_patterns.any (fun p => fnmatch path_str p) ||
    rs.include_regexes.any (fun r => r path_str)

/-- Line 50 / 59: Python truthiness of `include_patterns or include_regexes`. -/
def hasIncludePatterns (rs : RuleSet) : Bool :=
  !rs.include_patterns.isEmpty || !rs.include_regexes.isEmpty

/-- `should_process_path` (main.py lines 18-64), with `path_str = str(path)`.
Line 56 returns `not has_inclusion_patterns or matches_inclusion or True`,
reproduced verbatim. -/
def should_process_path (path_str : String) (rs : RuleSet)
    (is_checking_dir : Bool) : Bool :=
  if matchesExclude rs path_str then
    false
  else if is_checking_dir then
    !hasIncludePatterns rs || matchesInclude rs path_str || true
  else if hasIncludePatterns rs then
    matchesInclude rs path_str
  else
    true

/-! ## Filesystem model -/

/-- Outcome of opening/decoding/reading one file, as seen by
`is_binary_file` (lines 110-117) and `create_markdown` (lines 204-211):
* `text c` — the file opens and decodes fully, with content `c`;
* `binary` — the file opens but its leading 1024-byte window fails to
  decode as UTF-8 (`UnicodeDecodeError` inside `is_binary_file`);
* `readError e` — the file opens and its leading window decodes, but
  reading the full content raises an exception with message `e`;
* `openError e` — `open()` itself raises an exception with message `e`. -/
inductive FileData where
  | text (content : String) : FileData
  | binary : FileData
  | readError (msg : String) : FileData
  | openError (msg : String) : FileData
deriving DecidableEq, Repr

mutual
/-- A directory entry.  A directory's `listable` flag is false when
listing it (scandir/iterdir) raises `OSError`; its entries are then
unobservable by the program. -/
inductive Node where
  | file (name : String) (data : FileData) : Node
  | dir (name : String) (listable : Bool) (children : Forest) : Node

/-- The entries of one directory, in listing order. -/
inductive Forest where
  | nil : Forest
  | cons (head : Node) (tail : Forest) : Forest
end

def Node.name : Node → String
  | .file n _ => n
  | .dir n _ _ => n

def Node.isDir : Node → Bool
  | .file _ _ => false
  | .dir _ _ _ => true

def Forest.toList : Forest → List Node
  | .nil => []
  | .cons a rest => a :: rest.toList

mutual
/-- Number of nodes in a subtree (used as recursion fuel bounds). -/
def countN : Node → Nat
  | .file _ _ => 1
  | .dir _ _ ch => 1 + countF ch

/-- Number of nodes in a forest. -/
def countF : Forest → Nat
  | .nil => 0
  | .cons a rest => countN a + countF rest
end

/-- Number of nodes hanging off a list of entries. -/
def countL : List Node → Nat
  | [] => 0
  | a :: rest => countN a + countL rest

/-- The root directory handed to the program: its name (`root_dir.name`),
whether its own listing succeeds, and its entries. -/
structure DirTree where
  name : String
  listable : Bool
  children : Forest

/-- `str(root_dir)`: the root's full path string; `basePath` is the
parent prefix (for a resolved input directory, an absolute path). -/
def rootFullPath (basePath : String) (root : DirTree) : String :=
  basePath ++ "/" ++ root.name

/-! ## Walker (`collect_files`, main.py lines 120-164) -/

/-- One element of `collect_files`' result: the tuple
`(file_path, relative_path)` as strings, together with the file's data
(in the code the data stays on disk and is re-read by `create_markdown`;
the record carries it so reading can be modelled). -/
structure FileRec where
  full : String
  rel : String
  data : FileData
deriving DecidableEq, Repr

/-- `str(file_path.relative_to(directory))`: join a relative prefix with
a child name ("" is the empty prefix at the root itself). -/
def joinRel (relPath n : String) : String :=
  if relPath = "" then n else relPath ++ "/" ++ n

/-- The file records contributed by one directory listing (lines 144-152
and 155-162): each plain file whose full path string passes the
file-mode selector. -/
def hereFiles (rs : RuleSet) (fullPath relPath : String)
    (children : Forest) : List FileRec :=
  children.toList.filterMap fun c =>
    match c with
    | Node.file n d =>
      if should_process_path (fullPath ++ "/" ++ n) rs false then
        some ⟨fullPath ++ "/" ++ n, joinRel relPath n, d⟩
      else none
    | Node.dir _ _ _ => none

mutual
/-- The records contributed by the subdirectories of one listing, under
`os.walk`'s top-down traversal (lines 130-152): a subdirectory is pruned
when the directory-mode selector rejects it (lines 136-141); a kept
subdirectory is handed to `subWalkNode`. -/
def subWalk (rs : RuleSet) : String → String → Forest → List FileRec
  | _, _, Forest.nil => []
  | fp, rp, Forest.cons a rest => subWalkNode rs fp rp a ++ subWalk rs fp rp rest

/-- `os.walk` entering one kept entry: files contribute nothing here (a
file is handled by `hereFiles` of its parent); a kept subdirectory whose
own listing fails is silently skipped (`os.walk`'s documented default
`onerror=None` behaviour); otherwise its files and, recursively, its
subdirectories contribute. -/
def subWalkNode (rs : RuleSet) : String → String → Node → List FileRec
  | _, _, Node.file _ _ => []
  | fp, rp, Node.dir n listable ch =>
    if should_process_path (fp ++ "/" ++ n) rs true then
      (if listable then
        hereFiles rs (fp ++ "/" ++ n) (joinRel rp n) ch ++
          subWalk rs (fp ++ "/" ++ n) (joinRel rp n) ch
      else [])
    else []
end

/-- Ordering used by line 164's `sorted(result, key=lambda x: str(x[1]))`:
Python string comparison on the relative path. -/
def relLE (a b : FileRec) : Prop := charsLE a.rel.data b.rel.data = true

instance : DecidableRel relLE := fun a b =>
  inferInstanceAs (Decidable (charsLE a.rel.data b.rel.data = true))

instance : IsTotal FileRec relLE :=
  ⟨fun a b => charsLE_total a.rel.data b.rel.data⟩

instance : IsTrans FileRec relLE :=
  ⟨fun a b c => charsLE_trans a.rel.data b.rel.data c.rel.data⟩

def sortByRel (l : List FileRec) : List FileRec :=
  List.insertionSort relLE l

/-- `collect_files` (lines 120-164).  Recursive mode uses `os.walk`
(which swallows listing errors, including on the root itself);
non-recursive mode uses `iterdir` on the root, which raises — this is
the only traversal error the function can surface. -/
def collect_files (rs : RuleSet) (basePath : String) (root : DirTree)
    (recursive : Bool) : Except String (List FileRec) :=
  let full := rootFullPath basePath root
  if recursive then
    Except.ok (sortByRel
      (if root.listable then
        hereFiles rs full "" root.children ++ subWalk rs full "" root.children
      else []))
  else
    if root.listable then
      Except.ok (sortByRel (hereFiles rs full "" root.children))
    else
      Except.error ("cannot list directory: " ++ full)

/-! ## Tree renderer (`generate_tree`, main.py lines 67-107) -/

/-- Line 76's sort key `(not p.is_dir(), p.name)` in tuple order:
directories before files, then by name (Python string order). -/
def itemLE (a b : Node) : Prop :=
  (a.isDir = b.isDir ∧ charsLE a.name.data b.name.data = true) ∨
    (a.isDir = true ∧ b.isDir = false)

instance : DecidableRel itemLE := fun a b => by
  unfold itemLE; infer_instance

def sortItems (l : List Node) : List Node :=
  List.insertionSort itemLE l

/-- Lines 76-88: the `visible_items` of one directory — the sorted
entries, minus subdirectories at depth > 0 when not recursive, minus
entries rejected by the selector (on the entry's full path string, in
directory mode exactly for directories). -/
def visibleItems (rs : RuleSet) (recursive : Bool) (dirFull : String)
    (depth : Nat) (children : Forest) : List Node :=
  (sortItems children.toList).filter fun item =>
    (!(!recursive && item.isDir && decide (0 < depth))) &&
      should_process_path (dirFull ++ "/" ++ item.name) rs item.isDir

/-- Lines 91-104: emit the lines for a list of visible items.  `pre` is
the accumulated prefix, `dirFull` the full path of the directory being
rendered, `depth` its depth (root = 0).  The last sibling gets `└── `,
earlier siblings `├── `; a directory is expanded (with the extended
prefix) when `recursive or depth == 0`, by rendering the visible items
of its own listing — a listing that fails raises, aborting the render.
The fuel argument only drives the recursion; any fuel of at least
`countL` of the items is enough and never runs out
(`renderListF_fuel_irrelevant`), and `generate_tree` always supplies
enough. -/
def renderListF (rs : RuleSet) (recursive : Bool) :
    Nat → List Node → String → String → Nat → Except String (List String)
  | _, [], _, _, _ => Except.ok []
  | 0, _ :: _, _, _, _ => Except.ok []
  | fuel + 1, item :: rest, pre, dirFull, depth =>
    let connector := if rest.isEmpty then "└── " else "├── "
    let nextPre := if rest.isEmpty then "    " else "│   "
    let line := pre ++ connector ++ item.name
    let sub : Except String (List String) :=
      match item with
      | Node.file _ _ => Except.ok []
      | Node.dir n listable ch =>
        if recursive || depth == 0 then
          (if listable then
            renderListF rs recursive fuel
              (visibleItems rs recursive (dirFull ++ "/" ++ n) (depth + 1) ch)
              (pre ++ nextPre) (dirFull ++ "/" ++ n) (depth + 1)
          else Except.error ("cannot list directory: " ++ (dirFull ++ "/" ++ n)))
        else Except.ok []
    match sub with
    | Except.error e => Except.error e
    | Except.ok subLines =>
      match renderListF rs recursive fuel rest pre dirFull depth with
      | Except.error e => Except.error e
      | Except.ok restLines => Except.ok (line :: (subLines ++ restLines))

/-- `generate_tree` (lines 67-107): the root's own name first, then the
rendered entries, joined with newlines.  The root's own listing failing
raises out of the function. -/
def generate_tree (rs : RuleSet) (basePath : String) (root : DirTree)
    (recursive : Bool) : Except String String :=
  let full := rootFullPath basePath root
  if root.listable then
    match renderListF rs recursive (countF root.children)
        (visibleItems rs recursive full 0 root.children) "" full 0 with
    | Except.error e => Except.error e
    | Except.ok lines => Except.ok (String.intercalate "\n" (root.name :: lines))
  else Except.error ("cannot list directory: " ++ full)

/-! ## Document assembler (`create_markdown`, main.py lines 167-215) -/

/-- `is_binary_file` (lines 110-117): opens the file and decodes a
leading window.  Only `UnicodeDecodeError` is caught (→ `true`); a
failure of `open()` itself propagates as an exception. -/
def is_binary_file : FileData → Except String Bool
  | FileData.text _ => Except.ok false
  | FileData.binary => Except.ok true
  | FileData.readError _ => Except.ok false
  | FileData.openError e => Except.error e

def binaryPlaceholder : String := "/* Binary file not shown */"

def readErrorPlaceholder (e : String) : String :=
  "/* Error reading file: " ++ e ++ " */"

/-- Lines 204-211: the text placed inside a file's fenced block.  Binary
detection runs first (its exception propagates); then the full read,
whose own failure is caught and replaced by the inline placeholder.  The
final catch-all arm is unreachable: `binary` was answered `true` above
and `openError` already propagated. -/
def fileBody (d : FileData) : Except String String :=
  match is_binary_file d with
  | Except.error e => Except.error e
  | Except.ok true => Except.ok binaryPlaceholder
  | Except.ok false =>
    match d with
    | FileData.text c => Except.ok c
    | FileData.readError e => Except.ok (readErrorPlaceholder e)
    | _ => Except.ok ""

/-- The last `/`-separated segment of a relative path (`Path.name`). -/
def lastSegment (rel : String) : String :=
  String.mk ((rel.data.reverse.takeWhile (fun c => c ≠ '/')).reverse)

/-- `file_path.suffix.lstrip('.')` (line 199): the extension after the
last dot of the file name, empty when the name has no dot, starts with
its only dot, or ends with its last dot. -/
def fileExt (name : String) : String :=
  let cs := name.data
  let revExt := cs.reverse.takeWhile (fun c => c ≠ '.')
  if 0 < revExt.length ∧ revExt.length + 1 < cs.length then
    String.mk revExt.reverse
  else ""

/-- Lines 198-213: one file's section of the File Contents part. -/
def fileBlock (r : FileRec) : Except String String :=
  match fileBody r.data with
  | Except.error e => Except.error e
  | Except.ok body =>
    Except.ok ("`" ++ r.rel ++ "`\n```" ++ fileExt (lastSegment r.rel) ++
      "\n" ++ body ++ "\n```\n\n")

/-- Lines 180-187: everything written before the per-file blocks. -/
def docHeader (tree : String) : String :=
  "# Directory Structure\n\n```\n" ++ tree ++ "\n```\n\n# File Contents\n\n"

/-- `create_markdown` (lines 167-215), as the text of the produced
artifact: the tree section, then the File Contents blocks in the order
`collect_files` returned them.  Any uncaught exception aborts. -/
def create_markdown (rs : RuleSet) (basePath : String) (root : DirTree)
    (recursive : Bool) : Except String String :=
  match generate_tree rs basePath root recursive with
  | Except.error e => Except.error e
  | Except.ok tree =>
    match collect_files rs basePath root recursive with
    | Except.error e => Except.error e
    | Except.ok files =>
      match files.mapM fileBlock with
      | Except.error e => Except.error e
      | Except.ok blocks => Except.ok (docHeader tree ++ String.join blocks)

/-! ## Concrete rule sets and trees used to instantiate theorems -/

/-- Build a forest from a list of entries. -/
def forestOf : List Node → Forest
  | [] => Forest.nil
  | a :: rest => Forest.cons a (forestOf rest)

/-- No patterns at all. -/
def rsNone : RuleSet := ⟨[], [], [], []⟩

/-- `--exclude "*.pyc"`. -/
def rsPyc : RuleSet := ⟨[], [], ["*.pyc"], []⟩

/-- `--include "*.py"`. -/
def rsPy : RuleSet := ⟨["*.py"], [], [], []⟩

/-- `--exclude "a.py"`: matches the root-relative form of `/abs/proj/a.py`
but not its as-walked form. -/
def rsRelPy : RuleSet := ⟨[], [], ["a.py"], []⟩

/-- An exclude pattern matching exactly the root's own path `/b/root`. -/
def rsRootPath : RuleSet := ⟨[], [], ["/b/root"], []⟩

/-- A root holding one readable text file. -/
def demoTree : DirTree :=
  ⟨"root", true, forestOf [Node.file "a.txt" (FileData.text "A")]⟩

def demoRec : FileRec := ⟨"/b/root/a.txt", "a.txt", FileData.text "A"⟩

/-- A root with a file and a nested directory holding a file. -/
def treeNested : DirTree :=
  ⟨"root", true, forestOf [Node.file "x.txt" (FileData.text "X"),
    Node.dir "nested" true (forestOf [Node.file "y.txt" (FileData.text "Y")])]⟩

/-- A root with a readable file and an unlistable subdirectory that
contains a file. -/
def treeUnlistable : DirTree :=
  ⟨"root", true, forestOf [Node.file "a.txt" (FileData.text "A"),
    Node.dir "bad" false (forestOf [Node.file "secret.txt" (FileData.text "S")])]⟩

/-- A root whose single file cannot be opened. -/
def treeOpenFail : DirTree :=
  ⟨"root", true, forestOf [Node.file "a.txt" (FileData.openError "Permission denied")]⟩

/-- A root with a file whose full read fails and a healthy file. -/
def treeReadFail : DirTree :=
  ⟨"root", true, forestOf [Node.file "bad.txt" (FileData.readError "boom"),
    Node.file "good.txt" (FileData.text "hi")]⟩

/-- A root named `proj` holding one Python file. -/
def treeProj : DirTree :=
  ⟨"proj", true, forestOf [Node.file "a.py" (FileData.text "x")]⟩

/-! ## Shared lemmas -/

theorem countN_pos (a : Node) : 1 ≤ countN a := by
  cases a with
  | file n d => simp [countN]
  | dir n listable ch => simp [countN]

theorem countL_toList : ∀ f : Forest, countL f.toList = countF f
  | .nil => rfl
  | .cons a rest => by simp [Forest.toList, countL, countF, countL_toList rest]

theorem countL_perm {l1 l2 : List Node} (h : l1.Perm l2) :
    countL l1 = countL l2 := by
  induction h with
  | nil => rfl
  | cons x _ ih => simp [countL, ih]
  | swap x y l => simp [countL]; omega
  | trans _ _ ih1 ih2 => exact ih1.trans ih2

theorem countL_filter_le (p : Node → Bool) (l : List Node) :
    countL (l.filter p) ≤ countL l := by
  induction l with
  | nil => simp [List.filter]
  | cons a rest ih =>
    simp only [List.filter]
    cases p a with
    | true => simp [countL]; omega
    | false =>
      simp only [countL]
      have := countN_pos a
      omega

theorem countL_visibleItems_le (rs : RuleSet) (recursive : Bool)
    (dirFull : String) (depth : Nat) (ch : Forest) :
    countL (visibleItems rs recursive dirFull depth ch) ≤ countF ch := by
  unfold visibleItems
  calc countL ((sortItems ch.toList).filter _)
      ≤ countL (sortItems ch.toList) := countL_filter_le _ _
    _ = countL ch.toList := countL_perm (List.perm_insertionSort itemLE ch.toList)
    _ = countF ch := countL_toList ch

/-- The renderer's fuel argument is irrelevant as soon as it reaches the
node count of the items being rendered: the exhaustion branch of
`renderListF` is unreachable for the fuel `generate_tree` supplies. -/
theorem renderListF_fuel_irrelevant (rs : RuleSet) (recursive : Bool) :
    ∀ (f1 : Nat) (items : List Node) (f2 : Nat) (pre dirFull : String) (depth : Nat),
      countL items ≤ f1 → countL items ≤ f2 →
      renderListF rs recursive f1 items pre dirFull depth =
        renderListF rs recursive f2 items pre dirFull depth := by
  intro f1
  induction f1 with
  | zero =>
    intro items f2 pre dirFull depth h1 _
    cases items with
    | nil => cases f2 <;> rfl
    | cons a rest =>
      exfalso
      have := countN_pos a
      simp [countL] at h1
      omega
  | succ f1 ih =>
    intro items f2 pre dirFull depth h1 h2
    cases items with
    | nil => cases f2 <;> rfl
    | cons item rest =>
      cases f2 with
      | zero =>
        exfalso
        have := countN_pos item
        simp [countL] at h2
        omega
      | succ f2 =>
        have hp := countN_pos item
        have hrest1 : countL rest ≤ f1 := by simp [countL] at h1; omega
        have hrest2 : countL rest ≤ f2 := by simp [countL] at h2; omega
        cases item with
        | file n d =>
          simp only [renderListF]
          rw [ih rest f2 pre dirFull depth hrest1 hrest2]
        | dir n listable ch =>
          have hv := countL_visibleItems_le rs recursive (dirFull ++ "/" ++ n)
            (depth + 1) ch
          have hch1 : countL (visibleItems rs recursive (dirFull ++ "/" ++ n)
              (depth + 1) ch) ≤ f1 := by
            simp [countL, countN] at h1
            omega
          have hch2 : countL (visibleItems rs recursive (dirFull ++ "/" ++ n)
              (depth + 1) ch) ≤ f2 := by
            simp [countL, countN] at h2
            omega
          simp only [renderListF]
          rw [ih _ f2 _ _ _ hch1 hch2, ih rest f2 pre dirFull depth hrest1 hrest2]

/-- A path the selector accepts (in either mode) is not excluded. -/
theorem not_excluded_of_should {rs : RuleSet} {p : String} {m : Bool}
    (h : should_process_path p rs m = true) : matchesExclude rs p = false := by
  cases hx : matchesExclude rs p with
  | false => rfl
  | true => simp [should_process_path, hx] at h

/-- Every record emitted by `hereFiles` passed the file-mode selector. -/
theorem mem_hereFiles_should {rs : RuleSet} {fp rp : String}
    {ch : Forest} {r : FileRec} (h : r ∈ hereFiles rs fp rp ch) :
    should_process_path r.full rs false = true := by
  unfold hereFiles at h
  rw [List.mem_filterMap] at h
  obtain ⟨a, _, hfa⟩ := h
  cases a with
  | file n d =>
    by_cases hc : should_process_path (fp ++ "/" ++ n) rs false = true
    · simp only [hc, if_pos] at hfa
      cases hfa
      exact hc
    · simp [hc] at hfa
  | dir n listable sub => simp at hfa

/-- Every record emitted by the recursive walk passed the file-mode
selector. -/
theorem mem_subWalk_should {rs : RuleSet} :
    ∀ (n : Nat) (f : Forest) (fp rp : String) (r : FileRec),
      countF f ≤ n → r ∈ subWalk rs fp rp f →
      should_process_path r.full rs false = true := by
  intro n
  induction n with
  | zero =>
    intro f fp rp r hsz hmem
    cases f with
    | nil => simp [subWalk] at hmem
    | cons a rest =>
      exfalso
      have := countN_pos a
      simp [countF] at hsz
      omega
  | succ n ih =>
    intro f fp rp r hsz hmem
    cases f with
    | nil => simp [subWalk] at hmem
    | cons a rest =>
      rw [subWalk, List.mem_append] at hmem
      have hrest : countF rest ≤ n := by
        have := countN_pos a
        simp [countF] at hsz
        omega
      rcases hmem with hmem | hmem
      · cases a with
        | file nm d => simp [subWalkNode] at hmem
        | dir nm listable ch =>
          rw [subWalkNode] at hmem
          have hch : countF ch ≤ n := by
            simp [countF, countN] at hsz
            omega
          by_cases hdir : should_process_path (fp ++ "/" ++ nm) rs true = true
          · rw [if_pos hdir] at hmem
            cases listable with
            | false => simp at hmem
            | true =>
              rw [if_pos rfl, List.mem_append] at hmem
              rcases hmem with hmem | hmem
              · exact mem_hereFiles_should hmem
              · exact ih ch _ _ r hch hmem
          · rw [if_neg hdir] at hmem
            simp at hmem
      · exact ih rest fp rp r hrest hmem

/-- Membership is unchanged by the final sort of `collect_files`. -/
theorem mem_sortByRel {l : List FileRec} {r : FileRec} :
    r ∈ sortByRel l ↔ r ∈ l :=
  (List.perm_insertionSort relLE l).mem_iff

/-! ## C1: exclusion dominates everywhere -/

/-- C1: a path whose string form matches an exclude wildcard or exclude
regex is rejected by `should_process_path` in both modes; consequently no
collected file record carries an excluded path, and no entry shown in a
directory's rendered listing has an excluded path. -/
theorem exclusion_dominates :
    (∀ (rs : RuleSet) (p : String) (m : Bool),
      matchesExclude rs p = true → should_process_path p rs m = false)
    ∧ (∀ (rs : RuleSet) (basePath : String) (root : DirTree)
        (recursive : Bool) (l : List FileRec),
        collect_files rs basePath root recursive = Except.ok l →
        ∀ r ∈ l, matchesExclude rs r.full = false)
    ∧ (∀ (rs : RuleSet) (recursive : Bool) (dirFull : String) (depth : Nat)
        (ch : Forest) (item : Node),
        item ∈ visibleItems rs recursive dirFull depth ch →
        matchesExclude rs (dirFull ++ "/" ++ item.name) = false) := by
  refine ⟨?_, ?_, ?_⟩
  · intro rs p m h
    simp [should_process_path, h]
  · intro rs basePath root recursive l hcol r hr
    cases recursive with
    | true =>
      rw [collect_files] at hcol
      simp only [if_pos rfl] at hcol
      cases hcol
      rw [mem_sortByRel] at hr
      cases hlist : root.listable with
      | false => rw [hlist] at hr; simp at hr
      | true =>
        rw [hlist] at hr
        rw [if_pos rfl, List.mem_append] at hr
        rcases hr with hr | hr
        · exact not_excluded_of_should (mem_hereFiles_should hr)
        · exact not_excluded_of_should
            (mem_subWalk_should (countF root.children) _ _ _ _ le_rfl hr)
    | false =>
      rw [collect_files] at hcol
      simp only [Bool.false_eq_true, if_neg] at hcol
      cases hlist : root.listable with
      | false => rw [hlist] at hcol; simp at hcol
      | true =>
        rw [hlist] at hcol
        simp only [if_pos rfl, Except.ok.injEq] at hcol
        cases hcol
        rw [mem_sortByRel] at hr
        exact not_excluded_of_should (mem_hereFiles_should hr)
  · intro rs recursive dirFull depth ch item h
    unfold visibleItems at h
    rw [List.mem_filter] at h
    have hc := h.2
    rw [Bool.and_eq_true] at hc
    exact not_excluded_of_should hc.2

theorem exclusion_dominates_witness :
    should_process_path "x.pyc" rsPyc false = false ∧
    matchesExclude rsNone "/b/root/a.txt" = false ∧
    matchesExclude rsNone
      ("/b/root" ++ "/" ++ (Node.file "a.txt" (FileData.text "A")).name) = false :=
  ⟨exclusion_dominates.1 rsPyc "x.pyc" false (by decide),
   exclusion_dominates.2.1 rsNone "/b" demoTree true [demoRec] (by decide)
     demoRec (by decide),
   exclusion_dominates.2.2 rsNone true "/b/root" 0
     (forestOf [Node.file "a.txt" (FileData.text "A")])
     (Node.file "a.txt" (FileData.text "A"))
     (show Node.file "a.txt" (FileData.text "A") ∈
        [Node.file "a.txt" (FileData.text "A")] from List.mem_singleton.mpr rfl)⟩

/-! ## C2: directory-scan mode only prunes by exclusion -/

/-- C2: on a path that matches no exclude pattern, the directory-mode
check returns true for every combination of include patterns (line 56's
`... or True`). -/
theorem dir_scan_unconditional (rs : RuleSet) (p : String)
    (h : matchesExclude rs p = false) : should_process_path p rs true = true := by
  simp [should_process_path, h]

theorem dir_scan_unconditional_witness :
    should_process_path "/r/sub" rsPy true = true :=
  dir_scan_unconditional rsPy "/r/sub" (by decide)

/-! ## C3: file-mode inclusion logic -/

/-- C3: for a non-excluded file path, when either include list is
non-empty the file-mode check holds exactly when some include wildcard
or include regex matches; with no include patterns at all it holds
unconditionally. -/
theorem file_include_filter (rs : RuleSet) (p : String)
    (h : matchesExclude rs p = false) :
    (hasIncludePatterns rs = true →
      (should_process_path p rs false = true ↔ matchesInclude rs p = true))
    ∧ (hasIncludePatterns rs = false → should_process_path p rs false = true) := by
  constructor
  · intro hi
    simp [should_process_path, h, hi]
  · intro hi
    simp [should_process_path, h, hi]

theorem file_include_filter_witness :
    (should_process_path "/r/a.py" rsPy false = true ↔
      matchesInclude rsPy "/r/a.py" = true) ∧
    should_process_path "/r/b.txt" rsNone false = true :=
  ⟨(file_include_filter rsPy "/r/a.py" (by decide)).1 (by decide),
   (file_include_filter rsNone "/r/b.txt" (by decide)).2 (by decide)⟩

/-! ## C4: `*` crosses path separators -/

/-- A leading `*` token swallows any prefix of the input. -/
theorem tokMatch_anyMany_append (ts : List GTok) (l rest : List Char)
    (h : tokMatch ts rest = true) :
    tokMatch (GTok.anyMany :: ts) (l ++ rest) = true := by
  show (l ++ rest).tails.any (fun t => tokMatch ts t) = true
  rw [List.any_eq_true]
  exact ⟨rest, (List.mem_tails _ _).mpr (List.suffix_append l rest), h⟩

/-- C4 counterexample: the claim says the wildcard `*.py` does not match
the nested path `src/foo.py`; under `fnmatch` it does. -/
theorem star_crosses_separators_cex : fnmatch "src/foo.py" "*.py" = true := by
  decide

/-- C4 amended: `fnmatch`'s `*` matches any characters, path separators
included: `*.py` matches every path ending in `.py` (nested or not), and
`src/*.py` matches `src/foo.py` as well — it is not required for nested
files. -/
theorem star_crosses_separators :
    (∀ s : String, fnmatch (s ++ ".py") "*.py" = true) ∧
    fnmatch "src/foo.py" "src/*.py" = true := by
  constructor
  · intro s
    show tokMatch (lexGlob 4 "*.py".data) (s ++ ".py").data = true
    have hdata : (s ++ ".py").data = s.data ++ ".py".data := rfl
    rw [hdata]
    exact tokMatch_anyMany_append
      [GTok.lit '.', GTok.lit 'p', GTok.lit 'y'] s.data ".py".data (by decide)
  · decide

/-! ## C5: matching runs on the as-walked path, not the root-relative one -/

/-- Evaluation of `collect_files` on a root holding one file: the
decision is a function of the file's full as-walked path string
(root prefix included). -/
theorem collect_singleton (rs : RuleSet) (basePath rootName fname : String)
    (fd : FileData) :
    collect_files rs basePath ⟨rootName, true, forestOf [Node.file fname fd]⟩ true =
      Except.ok
        (if should_process_path (basePath ++ "/" ++ rootName ++ "/" ++ fname) rs false then
          [⟨basePath ++ "/" ++ rootName ++ "/" ++ fname, fname, fd⟩]
        else []) := by
  by_cases h :
    should_process_path (basePath ++ "/" ++ rootName ++ "/" ++ fname) rs false = true
  · simp [collect_files, rootFullPath, hereFiles, forestOf, Forest.toList, joinRel,
      subWalk, subWalkNode, sortByRel, List.insertionSort, List.orderedInsert, h]
  · simp [collect_files, rootFullPath, hereFiles, forestOf, Forest.toList, joinRel,
      subWalk, subWalkNode, sortByRel, List.insertionSort, List.orderedInsert, h]

/-- C5 counterexample: with `--exclude "a.py"`, the exclude pattern
matches the file's root-relative path `a.py` exactly, yet the file is
still collected: matching was evaluated on the as-walked string
`/abs/proj/a.py`, which the pattern does not match. -/
theorem matching_ignores_relative_form_cex :
    collect_files rsRelPy "/abs" treeProj true =
      Except.ok [⟨"/abs/proj/a.py", "a.py", FileData.text "x"⟩] ∧
    fnmatch "a.py" "a.py" = true ∧
    fnmatch "/abs/proj/a.py" "a.py" = false := by
  decide

/-- C5 amended: pattern matching is evaluated against the path's
as-walked string form, which carries the root directory's own prefix
(absolute when the input directory is given resolved); only display and
ordering use the root-relative form. -/
theorem matching_uses_walked_path (rs : RuleSet) (basePath rootName fname : String)
    (fd : FileData) :
    collect_files rs basePath ⟨rootName, true, forestOf [Node.file fname fd]⟩ true =
      Except.ok
        (if should_process_path (basePath ++ "/" ++ rootName ++ "/" ++ fname) rs false then
          [⟨basePath ++ "/" ++ rootName ++ "/" ++ fname, fname, fd⟩]
        else []) :=
  collect_singleton rs basePath rootName fname fd

/-! ## C6: non-recursive trees still expand root-level directories one level -/

/-- C6 (code bug): with `recursive=false` on a root holding `x.txt` and
`nested/y.txt`, the rendered tree shows `y.txt` beneath `nested` —
line 103's `recursive or depth == 0` descends into root-level
directories even with recursion off, and line 83 skips only
subdirectories there, not files.  The claim (and main.py's own comment
on lines 102-103) says `nested` should be a bare leaf. -/
theorem non_recursive_tree_shows_nested_files :
    generate_tree rsNone "/r" treeNested false =
      Except.ok "root\n├── nested\n│   └── y.txt\n└── x.txt" := by
  decide

/-! ## C7: listing failures during the recursive walk are swallowed -/

/-- C7 counterexample: the subdirectory `bad` cannot be listed, yet
recursive collection does not fail — it returns the rest of the files. -/
theorem unlistable_dir_skipped_cex :
    collect_files rsNone "/b" treeUnlistable true =
      Except.ok [⟨"/b/root/a.txt", "a.txt", FileData.text "A"⟩] := by
  decide

/-- C7 amended: `os.walk`'s default error handling makes recursive
collection total — a directory that cannot be listed (the root included)
is silently skipped, its contents omitted, and the partial result is
returned; only non-recursive mode surfaces a traversal error, when the
root itself cannot be listed. -/
theorem walk_swallows_listing_errors :
    (∀ (rs : RuleSet) (basePath : String) (root : DirTree),
      ∃ l, collect_files rs basePath root true = Except.ok l)
    ∧ (∀ (rs : RuleSet) (basePath rootName : String) (ch : Forest),
        collect_files rs basePath ⟨rootName, false, ch⟩ false =
          Except.error ("cannot list directory: " ++ (basePath ++ "/" ++ rootName)))
    ∧ collect_files rsNone "/b" treeUnlistable true =
        Except.ok [⟨"/b/root/a.txt", "a.txt", FileData.text "A"⟩] := by
  refine ⟨fun rs basePath root => ⟨_, rfl⟩, fun rs basePath rootName ch => rfl, by decide⟩

/-! ## C8: which per-file failures are recovered -/

/-- C8 counterexample: a file that cannot be opened is not recovered —
the uncaught exception from `is_binary_file`'s `open()` aborts the whole
run instead of producing an inline placeholder. -/
theorem open_failure_aborts_cex :
    create_markdown rsNone "/b" treeOpenFail true =
      Except.error "Permission denied" := by
  decide

/-- C8 amended: decode failures surface as the binary placeholder and
read failures after a successful open as the inline error placeholder,
with the run continuing to a complete artifact; but a failure of
`open()` itself (inside binary detection) is not caught and aborts the
run. -/
theorem read_failures_recovered :
    (∀ e, fileBody (FileData.readError e) = Except.ok (readErrorPlaceholder e))
    ∧ fileBody FileData.binary = Except.ok binaryPlaceholder
    ∧ (∀ c, fileBody (FileData.text c) = Except.ok c)
    ∧ (∀ e, fileBody (FileData.openError e) = Except.error e)
    ∧ create_markdown rsNone "/b" treeReadFail true =
        Except.ok ("# Directory Structure\n\n```\nroot\n├── bad.txt\n└── good.txt" ++
          "\n```\n\n# File Contents\n\n`bad.txt`\n```txt\n/* Error reading file: boom */" ++
          "\n```\n\n`good.txt`\n```txt\nhi\n```\n\n") := by
  refine ⟨fun e => rfl, rfl, fun c => rfl, fun e => rfl, by decide⟩

/-! ## C9: collection is sorted by relative path and drives block order -/

/-- C9: every list `collect_files` returns is ascending in the Python
string order of the records' relative paths, and `create_markdown` emits
exactly one block per record, concatenated in that list order after the
header. -/
theorem collect_sorted_by_rel :
    (∀ (rs : RuleSet) (basePath : String) (root : DirTree) (recursive : Bool)
      (l : List FileRec),
      collect_files rs basePath root recursive = Except.ok l →
      List.Sorted relLE l)
    ∧ (∀ (rs : RuleSet) (basePath : String) (root : DirTree) (recursive : Bool)
        (t : String) (l : List FileRec) (bl : List String),
        generate_tree rs basePath root recursive = Except.ok t →
        collect_files rs basePath root recursive = Except.ok l →
        l.mapM fileBlock = Except.ok bl →
        create_markdown rs basePath root recursive =
          Except.ok (docHeader t ++ String.join bl)) := by
  constructor
  · intro rs basePath root recursive l h
    rw [collect_files] at h
    split at h
    · cases h
      exact List.sorted_insertionSort relLE _
    · split at h
      · cases h
        exact List.sorted_insertionSort relLE _
      · exact absurd h (by simp)
  · intro rs basePath root recursive t l bl h1 h2 h3
    rw [create_markdown, h1, h2]
    dsimp only
    rw [h3]

theorem collect_sorted_by_rel_witness :
    List.Sorted relLE [demoRec] ∧
    create_markdown rsNone "/b" demoTree true =
      Except.ok (docHeader "root\n└── a.txt" ++
        String.join ["`a.txt`\n```txt\nA\n```\n\n"]) :=
  ⟨collect_sorted_by_rel.1 rsNone "/b" demoTree true [demoRec] (by decide),
   collect_sorted_by_rel.2 rsNone "/b" demoTree true "root\n└── a.txt" [demoRec]
     ["`a.txt`\n```txt\nA\n```\n\n"] (by decide) (by decide) (by decide)⟩

/-! ## C10: the root itself is never run through the selector -/

/-- Evaluation of `generate_tree` on a root holding one file that passes
the file-mode selector: the root is rendered by name and its child is
listed, with no check ever applied to the root's own path. -/
theorem tree_singleton (rs : RuleSet) (basePath rootName fname : String)
    (fd : FileData) (recursive : Bool)
    (h : should_process_path (basePath ++ "/" ++ rootName ++ "/" ++ fname) rs false = true) :
    generate_tree rs basePath ⟨rootName, true, forestOf [Node.file fname fd]⟩ recursive =
      Except.ok (String.intercalate "\n" [rootName, "└── " ++ fname]) := by
  have hv : visibleItems rs recursive (basePath ++ "/" ++ rootName) 0
      (forestOf [Node.file fname fd]) = [Node.file fname fd] := by
    simp [visibleItems, sortItems, forestOf, Forest.toList, List.insertionSort,
      List.orderedInsert, Node.isDir, Node.name, h]
  simp only [generate_tree, rootFullPath]
  rw [hv]
  rfl

/-- C10: the root directory is never tested against the selector — the
tree's first line is always the root's name, and even when the exclude
patterns match the root's own path, both the walker and the renderer
still descend into the root and consider its children. -/
theorem root_never_filtered :
    (∀ (rs : RuleSet) (basePath : String) (root : DirTree) (recursive : Bool)
      (s : String), generate_tree rs basePath root recursive = Except.ok s →
      ∃ rest, s = String.intercalate "\n" (root.name :: rest))
    ∧ (∀ (rs : RuleSet) (basePath rootName fname : String) (fd : FileData),
        matchesExclude rs (basePath ++ "/" ++ rootName) = true →
        should_process_path (basePath ++ "/" ++ rootName ++ "/" ++ fname) rs false = true →
        collect_files rs basePath ⟨rootName, true, forestOf [Node.file fname fd]⟩ true =
          Except.ok [⟨basePath ++ "/" ++ rootName ++ "/" ++ fname, fname, fd⟩])
    ∧ (∀ (rs : RuleSet) (basePath rootName fname : String) (fd : FileData)
        (recursive : Bool),
        matchesExclude rs (basePath ++ "/" ++ rootName) = true →
        should_process_path (basePath ++ "/" ++ rootName ++ "/" ++ fname) rs false = true →
        generate_tree rs basePath ⟨rootName, true, forestOf [Node.file fname fd]⟩
            recursive =
          Except.ok (String.intercalate "\n" [rootName, "└── " ++ fname])) := by
  refine ⟨?_, ?_, ?_⟩
  · intro rs basePath root recursive s h
    rw [generate_tree] at h
    split at h
    · split at h
      · exact absurd h (by simp)
      · exact ⟨_, (Except.ok.inj h).symm⟩
    · exact absurd h (by simp)
  · intro rs basePath rootName fname fd _ h2
    rw [collect_singleton rs basePath rootName fname fd, if_pos h2]
  · intro rs basePath rootName fname fd recursive _ h2
    exact tree_singleton rs basePath rootName fname fd recursive h2

theorem root_never_filtered_witness :
    (∃ rest, "root\n└── a.py" = String.intercalate "\n" ("root" :: rest)) ∧
    collect_files rsRootPath "/b"
        ⟨"root", true, forestOf [Node.file "a.py" (FileData.text "x")]⟩ true =
      Except.ok [⟨"/b/root/a.py", "a.py", FileData.text "x"⟩] ∧
    generate_tree rsRootPath "/b"
        ⟨"root", true, forestOf [Node.file "a.py" (FileData.text "x")]⟩ true =
      Except.ok (String.intercalate "\n" ["root", "└── " ++ "a.py"]) :=
  ⟨root_never_filtered.1 rsRootPath "/b"
     ⟨"root", true, forestOf [Node.file "a.py" (FileData.text "x")]⟩ true
     "root\n└── a.py" (by decide),
   root_never_filtered.2.1 rsRootPath "/b" "root" "a.py" (FileData.text "x")
     (by decide) (by decide),
   root_never_filtered.2.2 rsRootPath "/b" "root" "a.py" (FileData.text "x") true
     (by decide) (by decide)⟩

end DSMd
